import Mathlib

set_option maxRecDepth 8192

/-!
Shallow embedding of the image-editor utility modules and proofs about them:

* `src/state/sites/selectors.js` — the identity-keyed memoizing site
  materializer `getSite` and its `getSite.clearCache`;
* the media helpers (`url`, `getFileExtension`, `getMimeType`) from the
  media-utils module.

Mutable module state (the `WeakMap` site cache held in `getSiteCache`) is
embedded by explicit state passing.  JavaScript object identity is embedded
as a natural-number tag (`ref`); the embedding threads a monotone allocation
counter, and two objects are the same JS reference exactly when their tags
are equal.
-/

/-- JavaScript field values as they occur in site records and attribute maps:
`undef` models the JS `undefined` value; numbers and strings cover the data
the selectors manipulate (a site ID, a slug, a name, ...). -/
inductive JsValue where
  | undef
  | num (n : Int)
  | str (s : String)
deriving DecidableEq, Repr

/-- Field lookup in a JS object modelled as an association list built by
object spread (the spread `a` then `b` is embedded as `a ++ b`): the LAST
binding of a key wins, matching the override order of `{...a, ...b}`. -/
def objGet : List (String × JsValue) → String → Option JsValue
  | [], _ => none
  | (k, v) :: rest, key =>
    match objGet rest key with
    | some w => some w
    | none => if k = key then some v else none

/-- JS property read `o.k`: a key that is absent reads as `undefined`. -/
def jsIndex (fields : List (String × JsValue)) (k : String) : JsValue :=
  (objGet fields k).getD JsValue.undef

/-- A raw site record as stored in the state tree: `ref` models the JS object
identity (the `WeakMap` key), `fields` its own enumerable properties
(including `ID` and `slug`). -/
structure RawSite where
  ref : Nat
  fields : List (String × JsValue)
deriving DecidableEq, Repr

/-- A materialized ("computed") site object: `ref` is the identity of the JS
object allocated by the merge expression, `fields` its properties. -/
structure ComputedSite where
  ref : Nat
  fields : List (String × JsValue)
deriving DecidableEq, Repr

/-- The collaborator contracts consumed by `getSite` (raw-record lookup by ID
and by slug, and the two computed-attribute providers).  They are pure
functions of the state snapshot; the snapshot is folded into the closures, so
a fixed `SitesEnv` is one fixed state. -/
structure SitesEnv where
  getRawSite : JsValue → Option RawSite
  getSiteBySlug : JsValue → Option RawSite
  getSiteComputedAttributes : JsValue → List (String × JsValue)
  getJetpackComputedAttributes : JsValue → List (String × JsValue)

/-- The module-level `getSiteCache` WeakMap, modelled as an association list
keyed by the raw record's object identity. -/
abbrev SiteCache := List (Nat × ComputedSite)

/-- WeakMap lookup `getSiteCache.get(rawSite)`. -/
def cacheGet : SiteCache → Nat → Option ComputedSite
  | [], _ => none
  | (r, s) :: rest, ref => if r = ref then some s else cacheGet rest ref

/-- Raw-record resolution, line for line the expression
`getRawSite(state, siteIdOrSlug) || getSiteBySlug(state, siteIdOrSlug)`:
the by-ID lookup runs first and the by-slug lookup is consulted only when it
yields nothing. -/
def resolveRaw (env : SitesEnv) (siteIdOrSlug : JsValue) : Option RawSite :=
  match env.getRawSite siteIdOrSlug with
  | some r => some r
  | none => env.getSiteBySlug siteIdOrSlug

/-- The merge expression of `getSite`: a fresh object whose properties are the
spread of the raw record, then the site-computed attributes of `rawSite.ID`,
then the Jetpack-computed attributes of `rawSite.ID`. -/
def mkComputedSite (env : SitesEnv) (rawSite : RawSite) (fresh : Nat) : ComputedSite :=
  ⟨fresh,
    rawSite.fields
      ++ env.getSiteComputedAttributes (jsIndex rawSite.fields "ID")
      ++ env.getJetpackComputedAttributes (jsIndex rawSite.fields "ID")⟩

/-- `getSite(state, siteIdOrSlug)` from `src/state/sites/selectors.js`.
State-passing embedding: the function receives and returns the module cache
and the allocation counter; the returned `Option ComputedSite` is the JS
return value (`null` is `none`). -/
def getSite (env : SitesEnv) (siteIdOrSlug : JsValue)
    (cache : SiteCache) (fresh : Nat) :
    Option ComputedSite × SiteCache × Nat :=
  match resolveRaw env siteIdOrSlug with
  | none => (none, cache, fresh)
  | some rawSite =>
    match cacheGet cache rawSite.ref with
    | some cachedSite => (some cachedSite, cache, fresh)
    | none =>
      let site := mkComputedSite env rawSite fresh
      (some site, (rawSite.ref, site) :: cache, fresh + 1)

/-- `getSite.clearCache = () => { getSiteCache = new WeakMap(); }`:
replaces the module cache with a fresh empty one.  It is total (cannot fail)
and its JS return value is `undefined`; the embedding returns the new cache. -/
def getSite.clearCache (_cache : SiteCache) : SiteCache := []

/-- Spec-side description of the materialized fields: a key is looked up in
the Jetpack-computed attributes first, then the site-computed attributes,
then the raw fields — rightmost source wins on key collision. -/
def rightmostWins (raw sc jp : List (String × JsValue)) (key : String) : Option JsValue :=
  match objGet jp key with
  | some v => some v
  | none =>
    match objGet sc key with
    | some v => some v
    | none => objGet raw key

/-- The raw record of the spec's worked scenario:
`{ID: 7, slug: "example", name: "Example"}` with object identity 1. -/
def sampleRaw : RawSite :=
  ⟨1, [("ID", JsValue.num 7), ("slug", JsValue.str "example"),
       ("name", JsValue.str "Example")]⟩

/-- A concrete state for witnesses, the spec's worked scenario: ID 7 and slug
"example" resolve to the same raw record object; the site-computed attributes
of ID 7 override `name`; the Jetpack-computed attributes are empty. -/
def sampleEnv : SitesEnv :=
  ⟨fun k => if k = JsValue.num 7 then some sampleRaw else none,
   fun k => if k = JsValue.str "example" then some sampleRaw else none,
   fun i => if i = JsValue.num 7 then [("name", JsValue.str "Example Computed")] else [],
   fun _ => []⟩

/-- A media object as consumed by `url`: `transient` is the truthiness of
`media.transient`; `URL` is `media.URL` (`none` models a missing or undefined
URL); `thumbnails` is the optional named-thumbnail map. -/
structure Media where
  transient : Bool
  URL : Option String
  thumbnails : Option (List (String × String))
deriving DecidableEq, Repr

/-- The options accepted by `url`: `size` names a thumbnail, `maxWidth` asks
for a width-bounded resize, `resize` names a resize specification.  An absent
field models an absent JS property. -/
structure MediaOptions where
  size : Option String
  maxWidth : Option Int
  resize : Option String
deriving DecidableEq, Repr

/-- The argument object `url` passes to the external `resize-image-url`
helper: either `{ w: options.maxWidth }` or `{ resize: options.resize }`. -/
inductive ResizeArg where
  | w (n : Int)
  | resize (s : String)
deriving DecidableEq, Repr

/-- JS truthiness of an optional string: `undefined` and the empty string are
falsy. -/
def strTruthy : Option String → Bool
  | none => false
  | some s => !(s = "")

/-- JS property-key coercion performed by the `in` operator: an `undefined`
key reads as the string "undefined". -/
def jsKeyOf : Option String → String
  | some s => s
  | none => "undefined"

/-- The thumbnail test `media.thumbnails && options.size in media.thumbnails`
combined with the subsequent read `media.thumbnails[options.size]`. -/
def thumbLookup (m : Media) (o : MediaOptions) : Option String :=
  match m.thumbnails with
  | none => none
  | some th => th.lookup (jsKeyOf o.size)

/-- The `options.resize` branch of `url` and the raw-URL fallthrough; a falsy
(empty) resize spec falls through to the raw URL. -/
def urlAfterMax (rsz : String → ResizeArg → String) (u : String)
    (o : MediaOptions) : Option String :=
  match o.resize with
  | some rs => if rs = "" then some u else some (rsz u (ResizeArg.resize rs))
  | none => some u

/-- The `options.maxWidth` branch of `url`; a falsy (zero) width falls
through to the resize branch. -/
def urlAfterThumb (rsz : String → ResizeArg → String) (u : String)
    (o : MediaOptions) : Option String :=
  match o.maxWidth with
  | some wd => if wd = 0 then urlAfterMax rsz u o else some (rsz u (ResizeArg.w wd))
  | none => urlAfterMax rsz u o

/-- `url(media, options)` from the media-utils module (the variant whose
photon branch is commented out): absent media yields `undefined`; transient
media returns `media.URL` immediately; a falsy URL yields `undefined`;
otherwise a named-thumbnail hit wins, then a truthy `maxWidth`, then a truthy
`resize`, then the raw URL.  The external `resize-image-url` helper is the
abstract parameter `rsz`. -/
def url (rsz : String → ResizeArg → String) (media : Option Media)
    (options : Option MediaOptions) : Option String :=
  match media with
  | none => none
  | some m =>
    if m.transient then m.URL
    else if strTruthy m.URL = false then none
    else
      let o := options.getD ⟨none, none, none⟩
      let u := m.URL.getD ""
      match thumbLookup m o with
      | some t => some t
      | none => urlAfterThumb rsz u o

/-- A concrete stand-in for the external `resize-image-url` helper, used only
by witnesses. -/
def rszSample : String → ResizeArg → String := fun u _ => u

/-- Witness media object with a named thumbnail. -/
def mediaThumb : Media :=
  ⟨false, some "https://w.com/a.jpg",
    some [("thumbnail", "https://w.com/a-150.jpg")]⟩

/-- Witness media object with a URL and no thumbnails. -/
def mediaPlain : Media := ⟨false, some "https://w.com/a.jpg", none⟩

/-- Witness media object whose URL is missing. -/
def mediaNoUrl : Media := ⟨false, none, none⟩

/-- Witness transient media object whose URL is missing. -/
def mediaTransientNoUrl : Media := ⟨true, none, some [("thumbnail", "x")]⟩

/-- Characters the `valid-url` URI validator accepts besides alphanumerics
(the unreserved, reserved and percent characters of its character-class
check). -/
def isUriOtherChar (c : Char) : Bool :=
  c = ':' || c = '/' || c = '?' || c = '#' || c = '[' || c = ']' || c = '@' ||
  c = '!' || c = '$' || c = '&' || c = '\'' || c = '(' || c = ')' || c = '*' ||
  c = '+' || c = ',' || c = ';' || c = '=' || c = '.' || c = '-' || c = '_' ||
  c = '~' || c = '%'

/-- A character the `valid-url` validator accepts anywhere in a URI. -/
def isUriChar (c : Char) : Bool := c.isAlphanum || isUriOtherChar c

/-- Scheme capture of the `valid-url` splitting regex: the characters before
the first ':' form the scheme, provided none of '/', '?', '#' occurs before
that colon. -/
def schemeSplit : List Char → Option (List Char × List Char)
  | [] => none
  | c :: rest =>
    if c = ':' then some ([], rest)
    else if c = '/' || c = '?' || c = '#' then none
    else
      match schemeSplit rest with
      | some (sc, r) => some (c :: sc, r)
      | none => none

/-- A syntactically valid scheme: nonempty, a letter first, then letters,
digits, '+', '.' or '-'. -/
def validSchemeChars : List Char → Bool
  | [] => false
  | c :: rest =>
    c.isAlpha && rest.all (fun d => d.isAlphanum || d = '+' || d = '.' || d = '-')

/-- Model of `isUri` from the `valid-url` package, restricted to the shape the
media helpers exercise: every character must be legal in a URI and the string
must start with a well-formed scheme followed by ':'. -/
def isUri (s : String) : Bool :=
  s.data.all isUriChar &&
    match schemeSplit s.data with
    | some (sc, _) => validSchemeChars sc
    | none => false

/-- A character legal in the protocol capture of Node's legacy `url.parse`
(the regex `[a-z0-9.+-]+:` applied case-insensitively). -/
def isProtoChar (c : Char) : Bool :=
  c.isAlphanum || c = '+' || c = '.' || c = '-'

/-- Splits a leading `protocol:` off a URL the way Node's legacy `url.parse`
does: the characters before the first ':' must all be protocol characters. -/
def protoSplitCore : List Char → Option (List Char × List Char)
  | [] => none
  | c :: rest =>
    if c = ':' then some ([], rest)
    else if isProtoChar c then
      match protoSplitCore rest with
      | some (pre, r) => some (c :: pre, r)
      | none => none
    else none

/-- Node `url.parse` protocol split; an empty protocol does not count. -/
def protoSplit (l : List Char) : Option (List Char × List Char) :=
  match protoSplitCore l with
  | some ([], _) => none
  | r => r

/-- True on the characters that end the authority part of a URL. -/
def authDelim (c : Char) : Bool := c = '/' || c = '?' || c = '#'

/-- Model of `urlLib.parse(s).pathname` (Node's legacy url parser), restricted
to the behaviour the media helpers rely on: strip a leading `protocol:`;
after a protocol, `//` starts an authority running to the next '/', '?' or
'#'; the pathname is then everything up to the first '?' or '#'; a missing
pathname is `null` (`none`) — notably `url.parse("http://host").pathname` is
`null`. -/
def parsePathname (s : String) : Option String :=
  let l := s.data
  let rest :=
    match protoSplit l with
    | some (_, r) =>
      match r with
      | '/' :: '/' :: r2 => r2.dropWhile (fun c => !(authDelim c))
      | _ => r
    | none => l
  match rest.takeWhile (fun c => !(c = '?' || c = '#')) with
  | [] => none
  | path => some (String.mk path)

/-- True on '/', the posix path separator. -/
def isSlash (c : Char) : Bool := c = '/'

/-- Core of the `path.extname` model, scanning the reversed path: walk from
the end; a '/' or the start reached before any '.' means no extension; at the
last '.', nothing or a '/' right before the dot means a dotfile (no
extension), and a basename that is exactly ".." also has none; otherwise the
extension runs from that dot to the end. -/
def extnameRevAux : List Char → List Char → List Char
  | [], _ => []
  | c :: rest, acc =>
    if c = '/' then []
    else if c = '.' then
      match rest with
      | [] => []
      | d :: rest2 =>
        if d = '/' then []
        else if d = '.' ∧ acc = [] ∧ (rest2 = [] ∨ rest2.head? = some '/') then []
        else '.' :: acc
    else extnameRevAux rest (c :: acc)

/-- Model of Node's `path.extname` (posix flavour): trailing slashes are
ignored, then the extension runs from the last '.' of the basename unless
that dot begins the basename. -/
def extname (s : String) : String :=
  String.mk (extnameRevAux (s.data.reverse.dropWhile isSlash) [])

/-- JS `.slice(1)` as applied to the strings `extname` produces: drop the
first character (the empty string stays empty). -/
def slice1 (s : String) : String := String.mk (s.data.drop 1)

/-- The inputs `getFileExtension` and `getMimeType` accept: a plain string, a
`window.File` (with its `name` and MIME `type`), or a media metadata object
carrying the optional fields the code reads (`mime_type`, `extension`, `URL`,
`file`, `guid`). -/
inductive MediaInput where
  | str (s : String)
  | file (name : String) (type : String)
  | obj (mime_type : Option String) (extension : Option String)
      (URL : Option String) (file : Option String) (guid : Option String)
deriving DecidableEq, Repr

/-- JS truthiness of the media argument itself: `undefined`/`null` and the
empty string are falsy; objects and Files are truthy. -/
def inputTruthy : MediaInput → Bool
  | MediaInput.str s => !(s = "")
  | _ => true

/-- JS `a || b` on two optional strings (empty strings are falsy). -/
def jsOrS : Option String → Option String → Option String
  | some s, b => if s = "" then b else some s
  | none, b => b

/-- The metadata-object fallback of `getFileExtension`:
`url.parse(media.URL || media.file || media.guid || "").pathname || ""` fed
through `path.extname(...).slice(1)`. -/
def objFallbackExt (URL fileF guid : Option String) : String :=
  let src := (jsOrS (jsOrS URL fileF) guid).getD ""
  let pn := (parsePathname src).getD ""
  slice1 (extname pn)

/-- `getFileExtension(media)` from the media-utils module.  The function can
throw: on a URI string whose parse yields a `null` pathname (for example
"http://host" with no path), Node's `path.extname(null)` raises a
`TypeError`, modelled as `Except.error ()`; every other input returns
normally.  The JS `undefined` result is `ok none`. -/
def getFileExtension (media : Option MediaInput) : Except Unit (Option String) :=
  match media with
  | none => Except.ok none
  | some mi =>
    if inputTruthy mi = false then Except.ok none
    else
      match mi with
      | MediaInput.str s =>
        if isUri s then
          match parsePathname s with
          | none => Except.error ()
          | some filePath => Except.ok (some (slice1 (extname filePath)))
        else Except.ok (some (slice1 (extname s)))
      | MediaInput.file nm _ => Except.ok (some (slice1 (extname nm)))
      | MediaInput.obj _ ext URL fileF guid =>
        match ext with
        | some e =>
          if e = "" then Except.ok (some (objFallbackExt URL fileF guid))
          else Except.ok (some e)
        | none => Except.ok (some (objFallbackExt URL fileF guid))

/-- The `mime_type` property as read by `getMimeType` (only metadata objects
carry one). -/
def mimeTypeField : MediaInput → Option String
  | MediaInput.obj mt _ _ _ _ => mt
  | _ => none

/-- True exactly on `window.File` instances. -/
def isFileInput : MediaInput → Bool
  | MediaInput.file _ _ => true
  | _ => false

/-- Modelled from the spec: the `MimeTypes` static lookup table is imported
from `./constants`, a module that is not among the provided sources.  The
spec describes it as a static map of known extensions to MIME types, and its
worked examples map `gif` to `image/gif`.  This representative table is used
only to instantiate witnesses; the theorems quantify over an arbitrary
table. -/
def MimeTypes : List (String × String) :=
  [("gif", "image/gif"), ("jpg", "image/jpeg"), ("jpeg", "image/jpeg"),
   ("png", "image/png")]

/-- `getMimeType(media)` from the media-utils module, parameterized by the
static `MimeTypes` table: a truthy `mime_type` property is returned directly;
a `window.File` returns its `type`; otherwise the derived extension is
lowercased and looked up in the table, yielding `undefined` for a falsy
extension or a missing table entry.  A `TypeError` thrown inside
`getFileExtension` propagates. -/
def getMimeType (table : List (String × String)) (media : Option MediaInput) :
    Except Unit (Option String) :=
  match media with
  | none => Except.ok none
  | some mi =>
    if inputTruthy mi = false then Except.ok none
    else if strTruthy (mimeTypeField mi) then Except.ok (mimeTypeField mi)
    else
      match mi with
      | MediaInput.file _ t => Except.ok (some t)
      | _ =>
        match getFileExtension (some mi) with
        | Except.error e => Except.error e
        | Except.ok extOpt =>
          match extOpt with
          | none => Except.ok none
          | some e =>
            if e = "" then Except.ok none
            else Except.ok (table.lookup e.toLower)

theorem objGet_append (a b : List (String × JsValue)) (k : String) :
    objGet (a ++ b) k =
      match objGet b k with
      | some v => some v
      | none => objGet a k := by
  induction a with
  | nil =>
    rw [List.nil_append]
    cases hb : objGet b k <;> simp [objGet]
  | cons p rest ih =>
    rw [List.cons_append]
    show (match objGet (rest ++ b) k with
      | some w => some w
      | none => if p.1 = k then some p.2 else none) = _
    rw [ih]
    cases hb : objGet b k <;> cases hr : objGet rest k <;> simp [objGet, hr]

theorem cacheGet_cons_self (c : SiteCache) (ref : Nat) (s : ComputedSite) :
    cacheGet ((ref, s) :: c) ref = some s := by
  simp [cacheGet]

theorem getSite_run (env : SitesEnv) (k : JsValue) (cache : SiteCache)
    (fresh : Nat) (r : RawSite) (hres : resolveRaw env k = some r) :
    getSite env k cache fresh =
      match cacheGet cache r.ref with
      | some t => (some t, cache, fresh)
      | none => (some (mkComputedSite env r fresh),
          (r.ref, mkComputedSite env r fresh) :: cache, fresh + 1) := by
  unfold getSite
  rw [hres]

theorem getSite_makes_cached (env : SitesEnv) (k : JsValue) (cache : SiteCache)
    (fresh : Nat) (r : RawSite) (s : ComputedSite) (cache2 : SiteCache)
    (fresh2 : Nat) (hres : resolveRaw env k = some r)
    (h : getSite env k cache fresh = (some s, cache2, fresh2)) :
    cacheGet cache2 r.ref = some s := by
  rw [getSite_run env k cache fresh r hres] at h
  cases hc : cacheGet cache r.ref with
  | some t =>
    rw [hc] at h
    injection h with h1 h23
    injection h23 with h2 h3
    injection h1 with h1
    subst h2
    subst h1
    exact hc
  | none =>
    rw [hc] at h
    injection h with h1 h23
    injection h23 with h2 h3
    injection h1 with h1
    subst h2
    subst h1
    exact cacheGet_cons_self cache r.ref (mkComputedSite env r fresh)

theorem getSite_resolves_of_some (env : SitesEnv) (k : JsValue)
    (cache : SiteCache) (fresh : Nat) (s : ComputedSite) (cache2 : SiteCache)
    (fresh2 : Nat) (h : getSite env k cache fresh = (some s, cache2, fresh2)) :
    ∃ r, resolveRaw env k = some r := by
  cases hres : resolveRaw env k with
  | some r => exact ⟨r, rfl⟩
  | none =>
    unfold getSite at h
    rw [hres] at h
    exact absurd (congrArg Prod.fst h) (by simp)

/-- C1: when the key resolves to a raw record that is not yet in the cache,
`getSite` returns the freshly built merge of the raw fields with the
site-computed and Jetpack-computed attributes of the record's `ID`, and the
fields of that merge agree, at every key, with the rightmost-wins cascade
(Jetpack-computed over site-computed over raw). -/
theorem getSite_merge_rightmost (env : SitesEnv) (k : JsValue)
    (cache : SiteCache) (fresh : Nat) (r : RawSite) (key : String)
    (hres : resolveRaw env k = some r)
    (hmiss : cacheGet cache r.ref = none) :
    getSite env k cache fresh =
      (some (mkComputedSite env r fresh),
        (r.ref, mkComputedSite env r fresh) :: cache, fresh + 1) ∧
    objGet (mkComputedSite env r fresh).fields key =
      rightmostWins r.fields
        (env.getSiteComputedAttributes (jsIndex r.fields "ID"))
        (env.getJetpackComputedAttributes (jsIndex r.fields "ID")) key := by
  constructor
  · rw [getSite_run env k cache fresh r hres, hmiss]
  · show objGet (r.fields ++ _ ++ _) key = _
    rw [List.append_assoc, objGet_append, objGet_append, rightmostWins]
    cases objGet (env.getJetpackComputedAttributes (jsIndex r.fields "ID")) key <;>
      cases objGet (env.getSiteComputedAttributes (jsIndex r.fields "ID")) key <;>
      simp

/-- C1 witness: the spec's worked scenario, looked up by ID 7 on an empty
cache; at the colliding key `name` the site-computed value wins over the raw
one. -/
theorem getSite_merge_rightmost_witness :
    getSite sampleEnv (JsValue.num 7) [] 0 =
      (some (mkComputedSite sampleEnv sampleRaw 0),
        (sampleRaw.ref, mkComputedSite sampleEnv sampleRaw 0) :: [], 0 + 1) ∧
    objGet (mkComputedSite sampleEnv sampleRaw 0).fields "name" =
      rightmostWins sampleRaw.fields
        (sampleEnv.getSiteComputedAttributes (jsIndex sampleRaw.fields "ID"))
        (sampleEnv.getJetpackComputedAttributes (jsIndex sampleRaw.fields "ID"))
        "name" :=
  getSite_merge_rightmost sampleEnv (JsValue.num 7) [] 0 sampleRaw "name"
    (by decide) (by decide)

/-- C2: a second `getSite` call with the same key against the same state
returns the identical object (same identity tag), leaves the cache untouched
and does not advance the allocation counter — the merge is not recomputed. -/
theorem getSite_reference_stable (env : SitesEnv) (k : JsValue)
    (cache : SiteCache) (fresh : Nat) (s : ComputedSite) (cache2 : SiteCache)
    (fresh2 : Nat) (h : getSite env k cache fresh = (some s, cache2, fresh2)) :
    getSite env k cache2 fresh2 = (some s, cache2, fresh2) := by
  obtain ⟨r, hres⟩ := getSite_resolves_of_some env k cache fresh s cache2 fresh2 h
  have hcached := getSite_makes_cached env k cache fresh r s cache2 fresh2 hres h
  rw [getSite_run env k cache2 fresh2 r hres, hcached]

/-- C2 witness: after the first lookup of ID 7 materialized and cached the
site, the second lookup returns the identical object with cache and counter
unchanged. -/
theorem getSite_reference_stable_witness :
    getSite sampleEnv (JsValue.num 7)
        [(sampleRaw.ref, mkComputedSite sampleEnv sampleRaw 0)] 1 =
      (some (mkComputedSite sampleEnv sampleRaw 0),
        [(sampleRaw.ref, mkComputedSite sampleEnv sampleRaw 0)], 1) :=
  getSite_reference_stable sampleEnv (JsValue.num 7) [] 0
    (mkComputedSite sampleEnv sampleRaw 0)
    [(sampleRaw.ref, mkComputedSite sampleEnv sampleRaw 0)] 1 (by decide)

/-- C3: resolution order and the absence case.  When the by-ID lookup
succeeds its record is used (the slug lookup is irrelevant); when it fails
resolution is exactly the by-slug lookup; when both fail `getSite` returns
`null` — a normal value, no error — leaving cache and counter unchanged. -/
theorem getSite_lookup_order (env : SitesEnv) (k1 k2 k3 : JsValue)
    (cache : SiteCache) (fresh : Nat) (r : RawSite)
    (h1 : env.getRawSite k1 = some r)
    (h2 : env.getRawSite k2 = none)
    (h3a : env.getRawSite k3 = none) (h3b : env.getSiteBySlug k3 = none) :
    resolveRaw env k1 = some r ∧
    resolveRaw env k2 = env.getSiteBySlug k2 ∧
    getSite env k3 cache fresh = (none, cache, fresh) := by
  refine ⟨?_, ?_, ?_⟩
  · rw [resolveRaw, h1]
  · rw [resolveRaw, h2]
  · unfold getSite
    rw [resolveRaw, h3a, h3b]

/-- C3 witness: in the sample state, ID 7 resolves by the ID lookup, the
string key resolves only through the slug lookup, and the unknown key 999
yields `null`. -/
theorem getSite_lookup_order_witness :
    resolveRaw sampleEnv (JsValue.num 7) = some sampleRaw ∧
    resolveRaw sampleEnv (JsValue.str "example") =
      sampleEnv.getSiteBySlug (JsValue.str "example") ∧
    getSite sampleEnv (JsValue.num 999) [] 5 = (none, [], 5) :=
  getSite_lookup_order sampleEnv (JsValue.num 7) (JsValue.str "example")
    (JsValue.num 999) [] 5 sampleRaw (by decide) (by decide) (by decide)
    (by decide)

/-- C4: a key that resolves to no raw record makes `getSite` return `null`
with the cache returned exactly as it was (no entry inserted, removed or
altered) and no object allocated. -/
theorem getSite_unresolved_keeps_cache (env : SitesEnv) (k : JsValue)
    (cache : SiteCache) (fresh : Nat) (h : resolveRaw env k = none) :
    getSite env k cache fresh = (none, cache, fresh) := by
  unfold getSite
  rw [h]

/-- C4 witness: looking up the unknown key 999 against a non-empty cache
returns `null` and that same cache. -/
theorem getSite_unresolved_keeps_cache_witness :
    getSite sampleEnv (JsValue.num 999)
        [(sampleRaw.ref, mkComputedSite sampleEnv sampleRaw 0)] 1 =
      (none, [(sampleRaw.ref, mkComputedSite sampleEnv sampleRaw 0)], 1) :=
  getSite_unresolved_keeps_cache sampleEnv (JsValue.num 999)
    [(sampleRaw.ref, mkComputedSite sampleEnv sampleRaw 0)] 1 (by decide)

/-- C5: `getSite.clearCache` replaces the cache with an empty one, so the
next lookup of a previously-cached identity recomputes the merge and
allocates a new object: the result carries the fresh identity tag and is a
different object from the pre-clear cached one. -/
theorem clearCache_forces_recompute (env : SitesEnv) (k : JsValue)
    (cache : SiteCache) (fresh : Nat) (r : RawSite) (s0 : ComputedSite)
    (hres : resolveRaw env k = some r)
    (_hcached : cacheGet cache r.ref = some s0)
    (hfresh : s0.ref ≠ fresh) :
    getSite.clearCache cache = ([] : SiteCache) ∧
    getSite env k (getSite.clearCache cache) fresh =
      (some (mkComputedSite env r fresh),
        [(r.ref, mkComputedSite env r fresh)], fresh + 1) ∧
    mkComputedSite env r fresh ≠ s0 := by
  refine ⟨rfl, ?_, ?_⟩
  · rw [getSite.clearCache, getSite_run env k [] fresh r hres]
    rfl
  · intro he
    exact hfresh (congrArg ComputedSite.ref he).symm

/-- C5 witness: the site cached with identity tag 0 is discarded by
`clearCache`; the next lookup of ID 7 rebuilds the merge as a new object with
tag 1. -/
theorem clearCache_forces_recompute_witness :
    getSite.clearCache [(sampleRaw.ref, mkComputedSite sampleEnv sampleRaw 0)] =
      ([] : SiteCache) ∧
    getSite sampleEnv (JsValue.num 7)
        (getSite.clearCache [(sampleRaw.ref, mkComputedSite sampleEnv sampleRaw 0)]) 1 =
      (some (mkComputedSite sampleEnv sampleRaw 1),
        [(sampleRaw.ref, mkComputedSite sampleEnv sampleRaw 1)], 1 + 1) ∧
    mkComputedSite sampleEnv sampleRaw 1 ≠ mkComputedSite sampleEnv sampleRaw 0 :=
  clearCache_forces_recompute sampleEnv (JsValue.num 7)
    [(sampleRaw.ref, mkComputedSite sampleEnv sampleRaw 0)] 1 sampleRaw
    (mkComputedSite sampleEnv sampleRaw 0) (by decide) (by decide) (by decide)

/-- C6: the cache is keyed by the resolved raw record's identity, not by the
lookup key: when two different keys (an ID and a slug) resolve to the same
raw record object, a lookup by the second key right after a lookup by the
first returns the very same cached object, without touching cache or
counter. -/
theorem getSite_identity_keyed_cache (env : SitesEnv) (k1 k2 : JsValue)
    (cache : SiteCache) (fresh : Nat) (r : RawSite) (s : ComputedSite)
    (cache2 : SiteCache) (fresh2 : Nat)
    (h1 : resolveRaw env k1 = some r) (h2 : resolveRaw env k2 = some r)
    (hcall : getSite env k1 cache fresh = (some s, cache2, fresh2)) :
    getSite env k2 cache2 fresh2 = (some s, cache2, fresh2) := by
  have hcached := getSite_makes_cached env k1 cache fresh r s cache2 fresh2 h1 hcall
  rw [getSite_run env k2 cache2 fresh2 r h2, hcached]

/-- C6 witness: the spec's worked scenario — `getSite(state, 7)` materializes
the site, and `getSite(state, "example")`, resolving to the same raw record
object, returns the identical cached materialization. -/
theorem getSite_identity_keyed_cache_witness :
    getSite sampleEnv (JsValue.str "example")
        [(sampleRaw.ref, mkComputedSite sampleEnv sampleRaw 0)] 1 =
      (some (mkComputedSite sampleEnv sampleRaw 0),
        [(sampleRaw.ref, mkComputedSite sampleEnv sampleRaw 0)], 1) :=
  getSite_identity_keyed_cache sampleEnv (JsValue.num 7)
    (JsValue.str "example") [] 0 sampleRaw
    (mkComputedSite sampleEnv sampleRaw 0)
    [(sampleRaw.ref, mkComputedSite sampleEnv sampleRaw 0)] 1
    (by decide) (by decide) (by decide)

/-- C7: for non-transient media with a truthy URL, `url` applies the option
precedence named-thumbnail over max-width resize over named resize over raw
URL; it returns `undefined` when media is absent or its URL is missing. -/
theorem url_option_precedence (rsz : String → ResizeArg → String)
    (o0 : MediaOptions)
    (m1 : Media) (o1 : MediaOptions) (u1 sz1 t1 : String)
    (th1 : List (String × String))
    (h1a : m1.transient = false) (h1b : m1.URL = some u1) (h1c : u1 ≠ "")
    (h1d : m1.thumbnails = some th1) (h1e : o1.size = some sz1)
    (h1f : th1.lookup sz1 = some t1)
    (m2 : Media) (o2 : MediaOptions) (u2 : String) (w2 : Int)
    (h2a : m2.transient = false) (h2b : m2.URL = some u2) (h2c : u2 ≠ "")
    (h2d : thumbLookup m2 o2 = none) (h2e : o2.maxWidth = some w2)
    (h2f : w2 ≠ 0)
    (m3 : Media) (o3 : MediaOptions) (u3 r3 : String)
    (h3a : m3.transient = false) (h3b : m3.URL = some u3) (h3c : u3 ≠ "")
    (h3d : thumbLookup m3 o3 = none) (h3e : o3.maxWidth = none)
    (h3f : o3.resize = some r3) (h3g : r3 ≠ "")
    (m4 : Media) (o4 : MediaOptions) (u4 : String)
    (h4a : m4.transient = false) (h4b : m4.URL = some u4) (h4c : u4 ≠ "")
    (h4d : thumbLookup m4 o4 = none) (h4e : o4.maxWidth = none)
    (h4f : o4.resize = none)
    (m5 : Media) (o5 : MediaOptions)
    (h5a : m5.transient = false) (h5b : m5.URL = none) :
    url rsz none (some o0) = none ∧
    url rsz (some m1) (some o1) = some t1 ∧
    url rsz (some m2) (some o2) = some (rsz u2 (ResizeArg.w w2)) ∧
    url rsz (some m3) (some o3) = some (rsz u3 (ResizeArg.resize r3)) ∧
    url rsz (some m4) (some o4) = some u4 ∧
    url rsz (some m5) (some o5) = none := by
  refine ⟨rfl, ?_, ?_, ?_, ?_, ?_⟩
  · simp [url, h1a, h1b, h1c, strTruthy, thumbLookup, h1d, h1e, jsKeyOf, h1f]
  · simp [url, h2a, h2b, h2c, strTruthy, h2d, urlAfterThumb, h2e, h2f]
  · simp [url, h3a, h3b, h3c, strTruthy, h3d, urlAfterThumb, h3e, urlAfterMax,
      h3f, h3g]
  · simp [url, h4a, h4b, h4c, strTruthy, h4d, urlAfterThumb, h4e, urlAfterMax,
      h4f]
  · simp [url, h5a, h5b, strTruthy]

/-- C7 witness: all six clauses at concrete media and options, with the
external resize helper instantiated by `rszSample`. -/
theorem url_option_precedence_witness :
    url rszSample none (some ⟨none, none, none⟩) = none ∧
    url rszSample (some mediaThumb) (some ⟨some "thumbnail", none, none⟩) =
      some "https://w.com/a-150.jpg" ∧
    url rszSample (some mediaPlain) (some ⟨none, some 300, none⟩) =
      some (rszSample "https://w.com/a.jpg" (ResizeArg.w 300)) ∧
    url rszSample (some mediaPlain) (some ⟨none, none, some "100,100"⟩) =
      some (rszSample "https://w.com/a.jpg" (ResizeArg.resize "100,100")) ∧
    url rszSample (some mediaPlain) (some ⟨none, none, none⟩) =
      some "https://w.com/a.jpg" ∧
    url rszSample (some mediaNoUrl) (some ⟨none, none, none⟩) = none :=
  url_option_precedence rszSample ⟨none, none, none⟩
    mediaThumb ⟨some "thumbnail", none, none⟩ "https://w.com/a.jpg" "thumbnail"
    "https://w.com/a-150.jpg" [("thumbnail", "https://w.com/a-150.jpg")]
    (by decide) (by decide) (by decide) (by decide) (by decide) (by decide)
    mediaPlain ⟨none, some 300, none⟩ "https://w.com/a.jpg" 300
    (by decide) (by decide) (by decide) (by decide) (by decide) (by decide)
    mediaPlain ⟨none, none, some "100,100"⟩ "https://w.com/a.jpg" "100,100"
    (by decide) (by decide) (by decide) (by decide) (by decide) (by decide)
    (by decide)
    mediaPlain ⟨none, none, none⟩ "https://w.com/a.jpg"
    (by decide) (by decide) (by decide) (by decide) (by decide) (by decide)
    mediaNoUrl ⟨none, none, none⟩ (by decide) (by decide)

/-- C10: for transient media, `url` returns `media.URL` unchanged for every
options value, skipping the thumbnail, maxWidth and resize handling — so an
absent URL yields `undefined` despite the absent-URL guard applying only to
non-transient media. -/
theorem url_transient_returns_URL (rsz : String → ResizeArg → String)
    (m : Media) (options : Option MediaOptions)
    (h : m.transient = true) :
    url rsz (some m) options = m.URL := by
  simp [url, h]

/-- C10 witness: transient media with a missing URL and a matching thumbnail
still returns `media.URL` (that is, `undefined`), ignoring the options. -/
theorem url_transient_returns_URL_witness :
    url rszSample (some mediaTransientNoUrl)
      (some ⟨some "thumbnail", some 300, some "r"⟩) =
      mediaTransientNoUrl.URL :=
  url_transient_returns_URL rszSample mediaTransientNoUrl
    (some ⟨some "thumbnail", some 300, some "r"⟩) (by decide)

theorem takeWhile_all_true {α : Type} (q : α → Bool) (l : List α)
    (h : ∀ c ∈ l, q c = true) : l.takeWhile q = l := by
  induction l with
  | nil => rfl
  | cons c cs ih =>
    rw [List.takeWhile_cons, if_pos (h c (by simp)),
      ih (fun d hd => h d (by simp [hd]))]

theorem dropWhile_append_true {α : Type} (q : α → Bool) (l m : List α)
    (h : ∀ c ∈ l, q c = true) : (l ++ m).dropWhile q = m.dropWhile q := by
  induction l with
  | nil => rfl
  | cons c cs ih =>
    rw [List.cons_append, List.dropWhile_cons, if_pos (h c (by simp))]
    exact ih (fun d hd => h d (by simp [hd]))

theorem dropWhile_cons_false {α : Type} (q : α → Bool) (c : α) (l : List α)
    (h : q c = false) : (c :: l).dropWhile q = c :: l := by
  rw [List.dropWhile_cons, if_neg (by simp [h])]

theorem all_mem_dropWhile {α : Type} (q : α → Bool) (P : α → Prop)
    (l : List α) (h : ∀ c ∈ l, P c) : ∀ c ∈ l.dropWhile q, P c := by
  induction l with
  | nil => intro c hc; exact absurd hc (by simp)
  | cons a as ih =>
    intro c hc
    rw [List.dropWhile_cons] at hc
    by_cases hq : q a = true
    · rw [if_pos hq] at hc
      exact ih (fun d hd => h d (by simp [hd])) c hc
    · rw [if_neg hq] at hc
      exact h c hc

theorem alphanum_spec (c : Char) (h : c.isAlphanum = true) :
    c ≠ ':' ∧ c ≠ '/' ∧ c ≠ '?' ∧ c ≠ '#' ∧ c ≠ '.' := by
  refine ⟨?_, ?_, ?_, ?_, ?_⟩ <;> (intro hc; subst hc; revert h; decide)

theorem alpha_isAlphanum (c : Char) (h : c.isAlpha = true) :
    c.isAlphanum = true := by
  unfold Char.isAlphanum
  rw [h]
  rfl

theorem isUriChar_of_alphanum (c : Char) (h : c.isAlphanum = true) :
    isUriChar c = true := by
  unfold isUriChar
  rw [h]
  rfl

theorem schemeSplit_no_colon (l : List Char) (h : ∀ c ∈ l, c ≠ ':') :
    schemeSplit l = none := by
  induction l with
  | nil => rfl
  | cons c cs ih =>
    unfold schemeSplit
    rw [if_neg (h c (by simp))]
    cases hb : (c = '/' || c = '?' || c = '#') with
    | true => simp
    | false => simp [ih (fun d hd => h d (by simp [hd]))]

theorem isUri_no_colon (s : String) (h : ∀ c ∈ s.data, c ≠ ':') :
    isUri s = false := by
  unfold isUri
  rw [schemeSplit_no_colon s.data h]
  simp

theorem schemeSplit_at_colon (sc rest : List Char)
    (h : ∀ c ∈ sc, c.isAlphanum = true) :
    schemeSplit (sc ++ ':' :: rest) = some (sc, rest) := by
  induction sc with
  | nil => rfl
  | cons c cs ih =>
    have hc := alphanum_spec c (h c (by simp))
    rw [List.cons_append]
    unfold schemeSplit
    rw [if_neg hc.1]
    have hb : (c = '/' || c = '?' || c = '#') = false := by
      simp [hc.2.1, hc.2.2.1, hc.2.2.2.1]
    rw [hb]
    simp [ih (fun d hd => h d (by simp [hd]))]

theorem protoSplitCore_at_colon (sc rest : List Char)
    (h : ∀ c ∈ sc, c.isAlphanum = true) :
    protoSplitCore (sc ++ ':' :: rest) = some (sc, rest) := by
  induction sc with
  | nil => rfl
  | cons c cs ih =>
    have hc := alphanum_spec c (h c (by simp))
    rw [List.cons_append]
    unfold protoSplitCore
    rw [if_neg hc.1]
    have hpc : isProtoChar c = true := by
      unfold isProtoChar
      rw [h c (by simp)]
      rfl
    rw [hpc]
    simp [ih (fun d hd => h d (by simp [hd]))]

theorem protoSplit_at_colon (scl rest : List Char)
    (h : ∀ c ∈ scl, c.isAlphanum = true) (hne : scl ≠ []) :
    protoSplit (scl ++ ':' :: rest) = some (scl, rest) := by
  unfold protoSplit
  rw [protoSplitCore_at_colon scl rest h]
  cases scl with
  | nil => exact absurd rfl hne
  | cons a b => rfl

theorem extAux_clean (l rest acc : List Char)
    (h : ∀ c ∈ l, c ≠ '.' ∧ c ≠ '/') :
    extnameRevAux (l ++ rest) acc = extnameRevAux rest (l.reverse ++ acc) := by
  induction l generalizing acc with
  | nil => simp
  | cons c cs ih =>
    have hc := h c (by simp)
    rw [List.cons_append]
    simp only [extnameRevAux]
    rw [if_neg hc.2, if_neg hc.1,
      ih (c :: acc) (fun d hd => h d (by simp [hd]))]
    simp

theorem extAux_clean_nil (l acc : List Char)
    (h : ∀ c ∈ l, c ≠ '.' ∧ c ≠ '/') :
    extnameRevAux l acc = [] := by
  induction l generalizing acc with
  | nil => rfl
  | cons c cs ih =>
    have hc := h c (by simp)
    unfold extnameRevAux
    rw [if_neg hc.2, if_neg hc.1]
    exact ih (c :: acc) (fun d hd => h d (by simp [hd]))

theorem extAux_stop (pRev : List Char) (d : Char) (acc : List Char)
    (hd : d ≠ '/') (hacc : acc ≠ []) :
    extnameRevAux ('.' :: d :: pRev) acc = '.' :: acc := by
  unfold extnameRevAux
  rw [if_neg (by decide : ¬('.' = '/')), if_pos rfl]
  show (if d = '/' then [] else
    if d = '.' ∧ acc = [] ∧ (pRev = [] ∨ pRev.head? = some '/') then []
    else '.' :: acc) = '.' :: acc
  rw [if_neg hd, if_neg (fun hx => hacc hx.2.1)]

theorem extCore_concat (p ext : List Char) (d : Char) (pRev : List Char)
    (hrev : p.reverse = d :: pRev) (hd : d ≠ '/')
    (hext : ext ≠ []) (hc : ∀ c ∈ ext, c ≠ '.' ∧ c ≠ '/') :
    extnameRevAux ((p ++ '.' :: ext).reverse.dropWhile isSlash) [] =
      '.' :: ext := by
  have hrevall : (p ++ '.' :: ext).reverse = ext.reverse ++ '.' :: d :: pRev := by
    rw [List.reverse_append, List.reverse_cons, hrev]
    simp
  rw [hrevall]
  obtain ⟨e0, etl, he⟩ : ∃ e0 etl, ext.reverse = e0 :: etl := by
    cases hx : ext.reverse with
    | nil =>
      have : ext = [] := by
        have := congrArg List.reverse hx
        rwa [List.reverse_reverse] at this
      exact absurd this hext
    | cons a b => exact ⟨a, b, rfl⟩
  have he0 : e0 ∈ ext := by
    have : e0 ∈ ext.reverse := by rw [he]; simp
    exact List.mem_reverse.mp this
  rw [he, List.cons_append,
    dropWhile_cons_false isSlash e0 _ (by simp [isSlash, (hc e0 he0).2]),
    ← List.cons_append, ← he,
    extAux_clean ext.reverse _ [] (fun c hc2 => hc c (List.mem_reverse.mp hc2)),
    List.reverse_reverse, List.append_nil]
  exact extAux_stop pRev d ext hd hext

theorem string_mk_data (s : String) : String.mk s.data = s := by
  cases s
  rfl

theorem string_ne_empty (s : String) (h : s.data ≠ []) : s ≠ "" := by
  intro he
  apply h
  rw [he]

theorem data_concat3 (p ext : String) :
    (p ++ "." ++ ext).data = p.data ++ '.' :: ext.data := by
  rw [String.data_append, String.data_append]
  show (p.data ++ ['.']) ++ ext.data = _
  simp

theorem extname_concat (p ext : String) (d : Char) (pRev : List Char)
    (hrev : p.data.reverse = d :: pRev) (hd : d ≠ '/')
    (hext : ext.data ≠ []) (hc : ∀ c ∈ ext.data, c ≠ '.' ∧ c ≠ '/') :
    extname (p ++ "." ++ ext) = String.mk ('.' :: ext.data) := by
  unfold extname
  rw [data_concat3]
  exact congrArg String.mk (extCore_concat p.data ext.data d pRev hrev hd hext hc)

theorem slice1_dot (l : List Char) :
    slice1 (String.mk ('.' :: l)) = String.mk l := rfl

theorem extname_no_dot (s : String) (h : ∀ c ∈ s.data, c ≠ '.' ∧ c ≠ '/') :
    extname s = "" := by
  unfold extname
  have h2 : ∀ c ∈ s.data.reverse.dropWhile isSlash, c ≠ '.' ∧ c ≠ '/' :=
    all_mem_dropWhile isSlash _ s.data.reverse
      (fun c hc => h c (List.mem_reverse.mp hc))
  rw [extAux_clean_nil _ [] h2]

theorem uriData (sc host p ext : String) :
    (sc ++ "://" ++ host ++ "/" ++ p ++ "." ++ ext).data =
      sc.data ++ ':' :: '/' :: '/' ::
        (host.data ++ '/' :: (p.data ++ '.' :: ext.data)) := by
  have l1 : ("://" : String).data = [':', '/', '/'] := rfl
  have l2 : ("/" : String).data = ['/'] := rfl
  have l3 : ("." : String).data = ['.'] := rfl
  simp [String.data_append, l1, l2, l3]

theorem parsePathname_uri (sc host p ext : String)
    (hsc : ∀ c ∈ sc.data, c.isAlphanum = true) (hscne : sc.data ≠ [])
    (hhost : ∀ c ∈ host.data, c.isAlphanum = true ∨ c = '.')
    (hp : ∀ c ∈ p.data, c.isAlphanum = true)
    (hext : ∀ c ∈ ext.data, c.isAlphanum = true) :
    parsePathname (sc ++ "://" ++ host ++ "/" ++ p ++ "." ++ ext) =
      some (String.mk ('/' :: (p.data ++ '.' :: ext.data))) := by
  simp only [parsePathname]
  rw [uriData, protoSplit_at_colon sc.data _ hsc hscne]
  show (match
      (host.data ++ '/' :: (p.data ++ '.' :: ext.data)).dropWhile
        (fun c => !(authDelim c)) |>.takeWhile
        (fun c => !(c = '?' || c = '#')) with
    | [] => none
    | path => some (String.mk path)) = _
  rw [dropWhile_append_true _ host.data _ (fun c hc => by
    rcases hhost c hc with h | h
    · have := alphanum_spec c h
      simp [authDelim, this.2.1, this.2.2.1, this.2.2.2.1]
    · subst h
      decide)]
  rw [dropWhile_cons_false _ '/' _ (by decide)]
  rw [takeWhile_all_true _ _ (fun c hc => by
    rcases List.mem_cons.mp hc with h | h
    · subst h; decide
    · rcases List.mem_append.mp h with h | h
      · have := alphanum_spec c (hp c h)
        simp [this.2.2.1, this.2.2.2.1]
      · rcases List.mem_cons.mp h with h | h
        · subst h; decide
        · have := alphanum_spec c (hext c h)
          simp [this.2.2.1, this.2.2.2.1])]

theorem isUri_uri (sc host p ext : String)
    (hsc : ∀ c ∈ sc.data, c.isAlpha = true) (hscne : sc.data ≠ [])
    (hhost : ∀ c ∈ host.data, c.isAlphanum = true ∨ c = '.')
    (hp : ∀ c ∈ p.data, c.isAlphanum = true)
    (hext : ∀ c ∈ ext.data, c.isAlphanum = true) :
    isUri (sc ++ "://" ++ host ++ "/" ++ p ++ "." ++ ext) = true := by
  unfold isUri
  rw [uriData, Bool.and_eq_true]
  constructor
  · rw [List.all_eq_true]
    intro c hc
    rcases List.mem_append.mp hc with h | h
    · exact isUriChar_of_alphanum c (alpha_isAlphanum c (hsc c h))
    · rcases List.mem_cons.mp h with h | h
      · subst h; decide
      · rcases List.mem_cons.mp h with h | h
        · subst h; decide
        · rcases List.mem_cons.mp h with h | h
          · subst h; decide
          · rcases List.mem_append.mp h with h | h
            · rcases hhost c h with h2 | h2
              · exact isUriChar_of_alphanum c h2
              · subst h2; decide
            · rcases List.mem_cons.mp h with h | h
              · subst h; decide
              · rcases List.mem_append.mp h with h | h
                · exact isUriChar_of_alphanum c (hp c h)
                · rcases List.mem_cons.mp h with h | h
                  · subst h; decide
                  · exact isUriChar_of_alphanum c (hext c h)
  · rw [schemeSplit_at_colon sc.data _
      (fun c hc => alpha_isAlphanum c (hsc c hc))]
    cases hx : sc.data with
    | nil => exact absurd hx hscne
    | cons c cs =>
      show validSchemeChars (c :: cs) = true
      simp only [validSchemeChars]
      rw [hsc c (by rw [hx]; simp), Bool.true_and, List.all_eq_true]
      intro d hd
      rw [alpha_isAlphanum d (hsc d (by rw [hx]; simp [hd]))]
      rfl

theorem slice1_empty : slice1 "" = "" := rfl

/-- C8 counterexample: the code does not lowercase — `getFileExtension` on
"photo.GIF" yields "GIF", not "gif"; and an extensionless string yields the
empty string, not `undefined`. -/
theorem getFileExtension_case_counterexample :
    getFileExtension (some (MediaInput.str "photo.GIF")) =
      Except.ok (some "GIF") ∧
    (Except.ok (some "GIF") : Except Unit (Option String)) ≠
      Except.ok (some "gif") ∧
    getFileExtension (some (MediaInput.str "noext")) = Except.ok (some "") ∧
    (Except.ok (some "") : Except Unit (Option String)) ≠ Except.ok none := by
  refine ⟨rfl, by simp, rfl, by simp⟩

/-- C8 (amended): `getFileExtension` derives the extension and returns it
exactly as written in the source (case preserved, never lowercased): for a
plain path string or a File name of the form `p.ext` it returns `ext`
verbatim; for a metadata object with a truthy `extension` field it returns
that field verbatim; for a URI string, and for a metadata object carrying a
URL, it returns the final-dot suffix of the parsed pathname; it returns
`undefined` when media is absent or an empty string, and the empty string
(not `undefined`) when no extension can be derived. -/
theorem getFileExtension_characterization
    (p1 ext1 : String) (d1 : Char) (p1r : List Char)
    (h1a : p1.data.reverse = d1 :: p1r) (h1b : d1 ≠ '/')
    (h1c : ∀ c ∈ p1.data, c ≠ ':') (h1d : ext1.data ≠ [])
    (h1e : ∀ c ∈ ext1.data, c.isAlphanum = true)
    (q2 ext2 t2 : String) (d2 : Char) (q2r : List Char)
    (h2a : q2.data.reverse = d2 :: q2r) (h2b : d2 ≠ '/')
    (h2c : ext2.data ≠ []) (h2d : ∀ c ∈ ext2.data, c.isAlphanum = true)
    (e3 : String) (h3 : e3 ≠ "")
    (s4 : String) (h4a : s4.data ≠ [])
    (h4b : ∀ c ∈ s4.data, c.isAlphanum = true)
    (sc5 host5 p5 ext5 : String)
    (h5a : ∀ c ∈ sc5.data, c.isAlpha = true) (h5b : sc5.data ≠ [])
    (h5c : ∀ c ∈ host5.data, c.isAlphanum = true ∨ c = '.')
    (h5d : ∀ c ∈ p5.data, c.isAlphanum = true) (h5e : p5.data ≠ [])
    (h5f : ∀ c ∈ ext5.data, c.isAlphanum = true) (h5g : ext5.data ≠ []) :
    getFileExtension none = Except.ok none ∧
    getFileExtension (some (MediaInput.str "")) = Except.ok none ∧
    getFileExtension (some (MediaInput.str (p1 ++ "." ++ ext1))) =
      Except.ok (some ext1) ∧
    getFileExtension (some (MediaInput.file (q2 ++ "." ++ ext2) t2)) =
      Except.ok (some ext2) ∧
    getFileExtension (some (MediaInput.obj none (some e3) none none none)) =
      Except.ok (some e3) ∧
    getFileExtension (some (MediaInput.str s4)) = Except.ok (some "") ∧
    getFileExtension (some (MediaInput.str
        (sc5 ++ "://" ++ host5 ++ "/" ++ p5 ++ "." ++ ext5))) =
      Except.ok (some ext5) ∧
    getFileExtension (some (MediaInput.obj none none
        (some (sc5 ++ "://" ++ host5 ++ "/" ++ p5 ++ "." ++ ext5)) none none)) =
      Except.ok (some ext5) := by
  have hS5ne : (sc5 ++ "://" ++ host5 ++ "/" ++ p5 ++ "." ++ ext5) ≠ "" :=
    string_ne_empty _ (by rw [uriData]; simp)
  have huriT := isUri_uri sc5 host5 p5 ext5 h5a h5b h5c h5d h5f
  have hpp := parsePathname_uri sc5 host5 p5 ext5
    (fun c hc => alpha_isAlphanum c (h5a c hc)) h5b h5c h5d h5f
  have hfp : extname (String.mk ('/' :: (p5.data ++ '.' :: ext5.data))) =
      String.mk ('.' :: ext5.data) := by
    obtain ⟨d5, t5, hx⟩ : ∃ d5 t5, p5.data.reverse = d5 :: t5 := by
      cases hy : p5.data.reverse with
      | nil =>
        have hz : p5.data = [] := by
          have := congrArg List.reverse hy
          rwa [List.reverse_reverse] at this
        exact absurd hz h5e
      | cons a b => exact ⟨a, b, rfl⟩
    have hd5 : d5 ∈ p5.data := List.mem_reverse.mp (by rw [hx]; simp)
    exact congrArg String.mk (extCore_concat ('/' :: p5.data) ext5.data d5
      (t5 ++ ['/'])
      (by rw [List.reverse_cons, hx, List.cons_append])
      ((alphanum_spec d5 (h5d d5 hd5)).2.1) h5g
      (fun c hcm => ⟨(alphanum_spec c (h5f c hcm)).2.2.2.2,
        (alphanum_spec c (h5f c hcm)).2.1⟩))
  refine ⟨rfl, rfl, ?_, ?_, ?_, ?_, ?_, ?_⟩
  · have hne : (p1 ++ "." ++ ext1) ≠ "" :=
      string_ne_empty _ (by rw [data_concat3]; simp)
    have huri : isUri (p1 ++ "." ++ ext1) = false := isUri_no_colon _ (by
      rw [data_concat3]
      intro c hc
      rcases List.mem_append.mp hc with h | h
      · exact h1c c h
      · rcases List.mem_cons.mp h with h | h
        · subst h; decide
        · exact (alphanum_spec c (h1e c h)).1)
    have hext : extname (p1 ++ "." ++ ext1) = String.mk ('.' :: ext1.data) :=
      extname_concat p1 ext1 d1 p1r h1a h1b h1d (fun c hcm =>
        ⟨(alphanum_spec c (h1e c hcm)).2.2.2.2,
          (alphanum_spec c (h1e c hcm)).2.1⟩)
    simp [getFileExtension, inputTruthy, hne, huri, hext, slice1_dot,
      string_mk_data]
  · have hext : extname (q2 ++ "." ++ ext2) = String.mk ('.' :: ext2.data) :=
      extname_concat q2 ext2 d2 q2r h2a h2b h2c (fun c hcm =>
        ⟨(alphanum_spec c (h2d c hcm)).2.2.2.2,
          (alphanum_spec c (h2d c hcm)).2.1⟩)
    simp [getFileExtension, inputTruthy, hext, slice1_dot, string_mk_data]
  · simp [getFileExtension, inputTruthy, h3]
  · have hne4 : s4 ≠ "" := string_ne_empty s4 h4a
    have huri4 : isUri s4 = false := isUri_no_colon s4
      (fun c hc => (alphanum_spec c (h4b c hc)).1)
    have hx4 : extname s4 = "" := extname_no_dot s4 (fun c hc =>
      ⟨(alphanum_spec c (h4b c hc)).2.2.2.2, (alphanum_spec c (h4b c hc)).2.1⟩)
    simp [getFileExtension, inputTruthy, hne4, huri4, hx4, slice1_empty]
  · simp [getFileExtension, inputTruthy, hS5ne, huriT, hpp, hfp, slice1_dot,
      string_mk_data]
  · have hofe : objFallbackExt
        (some (sc5 ++ "://" ++ host5 ++ "/" ++ p5 ++ "." ++ ext5)) none none =
        ext5 := by
      simp [objFallbackExt, jsOrS, hS5ne, hpp, hfp, slice1_dot, string_mk_data]
    simp [getFileExtension, inputTruthy, hofe]

/-- C8 witness: concrete inputs for every clause — note "photo.GIF" keeps the
uppercase "GIF", "JPeG" keeps its mixed case, and "noext" yields the empty
string. -/
theorem getFileExtension_characterization_witness :
    getFileExtension none = Except.ok none ∧
    getFileExtension (some (MediaInput.str "")) = Except.ok none ∧
    getFileExtension (some (MediaInput.str ("photo" ++ "." ++ "GIF"))) =
      Except.ok (some "GIF") ∧
    getFileExtension
        (some (MediaInput.file ("example" ++ "." ++ "gif") "text/plain")) =
      Except.ok (some "gif") ∧
    getFileExtension (some (MediaInput.obj none (some "JPeG") none none none)) =
      Except.ok (some "JPeG") ∧
    getFileExtension (some (MediaInput.str "noext")) = Except.ok (some "") ∧
    getFileExtension (some (MediaInput.str
        ("https" ++ "://" ++ "wordpress.com" ++ "/" ++ "example" ++ "." ++ "gif"))) =
      Except.ok (some "gif") ∧
    getFileExtension (some (MediaInput.obj none none
        (some ("https" ++ "://" ++ "wordpress.com" ++ "/" ++ "example" ++ "." ++ "gif"))
        none none)) =
      Except.ok (some "gif") :=
  getFileExtension_characterization
    "photo" "GIF" 'o' ['t', 'o', 'h', 'p'] (by decide) (by decide) (by decide)
    (by decide) (by decide)
    "example" "gif" "text/plain" 'e' ['l', 'p', 'm', 'a', 'x', 'e'] (by decide)
    (by decide) (by decide) (by decide)
    "JPeG" (by decide)
    "noext" (by decide) (by decide)
    "https" "wordpress.com" "example" "gif"
    (by decide) (by decide) (by decide) (by decide) (by decide) (by decide)
    (by decide)

/-- C9 counterexample: a metadata object with a truthy `mime_type` and no
derivable extension (the derived extension is the falsy empty string) —
`getMimeType` returns the `mime_type` value, not `undefined`, bypassing the
table. -/
theorem getMimeType_shortcircuit_counterexample :
    getFileExtension
        (some (MediaInput.obj (some "image/gif") none none none none)) =
      Except.ok (some "") ∧
    getMimeType MimeTypes
        (some (MediaInput.obj (some "image/gif") none none none none)) =
      Except.ok (some "image/gif") ∧
    (Except.ok (some "image/gif") : Except Unit (Option String)) ≠
      Except.ok none := by
  refine ⟨rfl, rfl, by simp⟩

/-- C9 (amended): for media that lacks a truthy own `mime_type` and is not a
`File` object, `getMimeType` returns `undefined` when the derived extension
is falsy, and otherwise returns exactly the table lookup of the lowercased
extension (`undefined` when the table has no entry) — never a thrown failure
on these inputs. -/
theorem getMimeType_extension_table (table : List (String × String))
    (ma : MediaInput) (haT : inputTruthy ma = true)
    (haM : strTruthy (mimeTypeField ma) = false)
    (haF : isFileInput ma = false)
    (haE : getFileExtension (some ma) = Except.ok (some ""))
    (mb : MediaInput) (hbT : inputTruthy mb = true)
    (hbM : strTruthy (mimeTypeField mb) = false)
    (hbF : isFileInput mb = false)
    (e : String) (he : e ≠ "")
    (hbE : getFileExtension (some mb) = Except.ok (some e)) :
    getMimeType table (some ma) = Except.ok none ∧
    getMimeType table (some mb) = Except.ok (table.lookup e.toLower) := by
  constructor
  · cases ma with
    | file nm t => simp [isFileInput] at haF
    | str s => simp [getMimeType, haT, haM, haE]
    | obj a b c d g => simp [getMimeType, haT, haM, haE]
  · cases mb with
    | file nm t => simp [isFileInput] at hbF
    | str s => simp [getMimeType, hbT, hbM, hbE, he]
    | obj a b c d g => simp [getMimeType, hbT, hbM, hbE, he]

/-- C9 witness: a metadata object with no usable source yields `undefined`; a
metadata object whose URL ends in ".gif" yields the table entry for "gif". -/
theorem getMimeType_extension_table_witness :
    getMimeType MimeTypes (some (MediaInput.obj none none none none none)) =
      Except.ok none ∧
    getMimeType MimeTypes (some (MediaInput.obj none none
        (some "https://wordpress.com/example.gif") none none)) =
      Except.ok (MimeTypes.lookup ("gif".toLower)) :=
  getMimeType_extension_table MimeTypes
    (MediaInput.obj none none none none none)
    (by decide) (by decide) (by decide) rfl
    (MediaInput.obj none none (some "https://wordpress.com/example.gif") none none)
    (by decide) (by decide) (by decide) "gif" (by decide) rfl
